import Mathlib

/-!
Verification of the fuel-price processing pipeline in
`scripts/process_data.py` (merge / clean / emit of Italian fuel price
data as GeoJSON).

The embedding mirrors the Python source:

* Python `dict`s keyed by station id or category name become association
  lists (`List (k × v)`) with insertion-order-preserving item assignment
  (`dinsert`) and key lookup (`dlookup`), matching CPython dict semantics
  for the operations the script uses (membership test, item get, item
  set).
* A scalar cell that may or may not be numeric is a `PyVal`; numeric
  strings are modelled as already-parsed `PyVal.num` values (pandas'
  `read_csv` parses them), so `PyVal.str` stands for a value that numeric
  coercion rejects.  `float(...)` on such a value raises `ValueError`,
  which the `try/except` wrapped around `clean_and_merge_data` turns into
  `sys.exit(1)`; this aborted run is modelled by `Except Unit` with
  `.error ()`.  `pd.to_numeric(..., errors = coerce)` never raises and is
  `toNumeric`, returning `none` for the NaN it produces on failure.
* Prices and coordinates are exact rationals `ℚ`.
* Missing optional cells (a column absent from a row's dataset, read with
  `row.get(key, default)`) are `Option` fields.

Network fetch, file output and `main` are out of scope (they are thin
wrappers with no data logic).
-/

/-- Python dict lookup `d[k]` / `d.get(k)` as an association-list scan. -/
def dlookup {α β : Type} [DecidableEq α] (k : α) : List (α × β) → Option β
  | [] => none
  | (k', v) :: rest => if k' = k then some v else dlookup k rest

/-- Python dict item assignment `d[k] = v`: replace in place if the key is
present (keeping its position), otherwise append at the end, as CPython
dicts do. -/
def dinsert {α β : Type} [DecidableEq α] (k : α) (v : β) : List (α × β) → List (α × β)
  | [] => [(k, v)]
  | (k', v') :: rest => if k' = k then (k, v) :: rest else (k', v') :: dinsert k v rest

/-- Effect of `dinsert` on the key sequence of a dict: unchanged when the
key is already present, else the key is appended. -/
def keyIns {α : Type} [DecidableEq α] (k : α) : List α → List α
  | [] => [k]
  | k' :: ks => if k' = k then k' :: ks else k' :: keyIns k ks

/-- A scalar cell from a CSV column: either a parsed numeric value or a
string that numeric coercion rejects. -/
inductive PyVal where
  | num : ℚ → PyVal
  | str : String → PyVal
  deriving DecidableEq

/-- `pd.to_numeric(..., errors = coerce)` (lines 111-112): NaN (here
`none`) on failure, never an exception. -/
def toNumeric : PyVal → Option ℚ
  | .num q => some q
  | .str _ => none

/-- Python `float(x)` (lines 94, 98-99): the numeric value when `x` is
numeric, otherwise it raises `ValueError` (here `none`, which callers
propagate as `Except.error`). -/
def pyFloat : PyVal → Option ℚ
  | .num q => some q
  | .str _ => none

/-- The static fuel type mapping `FUEL_CATEGORIES` (lines 17-41): specific
fuel spellings grouped under six main categories. -/
def FUEL_CATEGORIES : List (String × List String) :=
  [("Benzina",
    ["Benzina", "Benzina speciale", "Benzina 100 ottani", "Benzina 102 Ottani",
     "Benzina Plus 98", "Benzina Speciale 98 Ottani", "Benzina Energy 98 ottani",
     "Benzina Shell V Power", "Benzina WR 100", "Blue Super", "Verde speciale",
     "F-101", "F101", "V-Power"]),
   ("Gasolio",
    ["Gasolio", "Gasolio Alpino", "Gasolio Artico", "Gasolio speciale",
     "Gasolio Artico Igloo", "Gasolio Ecoplus", "Gasolio Energy D",
     "Gasolio Gelo", "Gasolio Oro Diesel", "Gasolio Plus", "Gasolio Premium",
     "Gasolio Prestazionale", "Gasolio artico", "Blu Diesel Alpino",
     "Blue Diesel", "Diesel Shell V Power", "DieselMax", "E-DIESEL",
     "Excellium Diesel", "Excellium diesel", "GP DIESEL", "Hi-Q Diesel",
     "HiQ Perform+", "S-Diesel", "Supreme Diesel", "V-Power Diesel"]),
   ("Gasolio HVO",
    ["HVO", "HVO100", "HVOlution", "HVOvolution", "Diesel HVO",
     "Diesel HVO Energy", "Gasolio Bio HVO", "Gasolio HVO", "HVO Future",
     "HVO eco diesel", "REHVO", "BCHVO"]),
   ("GPL", ["GPL"]),
   ("Metano", ["Metano", "L-GNC"]),
   ("GNL", ["GNL"])]

/-- `get_main_fuel_category` (lines 43-49): scan the categories in table
order, return the first whose list contains the name, else the name
itself. -/
def get_main_fuel_category (fuel_name : String) : String :=
  match FUEL_CATEGORIES.find? (fun p => p.2.contains fuel_name) with
  | some p => p.1
  | none => fuel_name

/-- One row of the price CSV, as read in the loop of lines 82-86:
`idImpianto`, `descCarburante`, `prezzo`, and `dtComu` read with `row.get`
defaulting to the empty string. -/
structure PriceRecord where
  idImpianto : Nat
  descCarburante : String
  prezzo : PyVal
  dtComu : Option String
  deriving DecidableEq

/-- The two parallel dicts built by the loop of lines 77-100:
`price_groups : station id → category → price` and
`price_dates : station id → category → date`. -/
structure PriceState where
  price_groups : List (Nat × List (String × ℚ))
  price_dates : List (Nat × List (String × String))
  deriving DecidableEq

/-- Body of the price loop (lines 88-100) for one row whose price already
coerced to `p`: create the station's empty inner dicts on first sight
(lines 88-90), then insert the category price/date if absent (lines 93-95)
or replace both only when the new price is strictly lower (lines 97-100). -/
def applyRow (st : PriceState) (station_id : Nat) (main_category : String)
    (p : ℚ) (date_updated : String) : PriceState :=
  let st1 : PriceState :=
    if (dlookup station_id st.price_groups).isSome then st
    else { price_groups := dinsert station_id [] st.price_groups,
           price_dates := dinsert station_id [] st.price_dates }
  let inner := (dlookup station_id st1.price_groups).getD []
  let innerD := (dlookup station_id st1.price_dates).getD []
  match dlookup main_category inner with
  | none =>
      { price_groups := dinsert station_id (dinsert main_category p inner) st1.price_groups,
        price_dates := dinsert station_id (dinsert main_category date_updated innerD) st1.price_dates }
  | some current =>
      if p < current then
        { price_groups := dinsert station_id (dinsert main_category p inner) st1.price_groups,
          price_dates := dinsert station_id (dinsert main_category date_updated innerD) st1.price_dates }
      else st1

/-- One iteration of the loop of lines 82-100.  `float(price)` is raised
inside both branches of the source (lines 94 and 98); it is hoisted here
because the exception discards every intermediate state anyway (the
`except` handler at line 128 calls `sys.exit(1)`). -/
def processPriceRow (st : PriceState) (r : PriceRecord) : Except Unit PriceState :=
  match pyFloat r.prezzo with
  | none => .error ()
  | some p =>
      .ok (applyRow st r.idImpianto (get_main_fuel_category r.descCarburante)
            p (r.dtComu.getD ""))

/-- The whole price loop (lines 82-100), left to right over the rows. -/
def processPrices (st : PriceState) : List PriceRecord → Except Unit PriceState
  | [] => .ok st
  | r :: rs =>
      match processPriceRow st r with
      | .error e => .error e
      | .ok st1 => processPrices st1 rs

/-- Lines 77-100: build the two price dicts from the price dataframe,
starting from empty dicts. -/
def buildPriceMaps (prices : List PriceRecord) : Except Unit PriceState :=
  processPrices { price_groups := [], price_dates := [] } prices

/-- One row of the station CSV.  Coordinates are raw cells (coerced only
at lines 111-112); the descriptive columns are optional (`row.get` with
with the empty string as default at lines 151-157). -/
structure StationRecord where
  idImpianto : Nat
  Latitudine : PyVal
  Longitudine : PyVal
  Gestore : Option String
  Bandiera : Option String
  TipoImpianto : Option String
  NomeImpianto : Option String
  Indirizzo : Option String
  Comune : Option String
  Provincia : Option String
  deriving DecidableEq

/-- A station row that survived the merge and the coordinate cleaning:
coordinates are numeric and the price/date dicts are attached. -/
structure EnrichedStation where
  idImpianto : Nat
  Latitudine : ℚ
  Longitudine : ℚ
  Gestore : Option String
  Bandiera : Option String
  TipoImpianto : Option String
  NomeImpianto : Option String
  Indirizzo : Option String
  Comune : Option String
  Provincia : Option String
  prices : List (String × ℚ)
  priceDates : List (String × String)
  deriving DecidableEq

/-- Row-wise reading of lines 103-126 for one station: attach the price
dict by station id (lines 103-104) and drop the row when there is none
(line 107); coerce the coordinates (lines 111-112) and drop the row when
either is NaN (line 116); drop the row unless both are non-zero and inside
the closed boxes [35,48] and [6,19] (lines 121-126).  `priceDates` falls
back to the empty dict exactly as the `station.get` read of `priceDates`
with an empty-dict default does at line 160. -/
def enrichStation (pm : PriceState) (s : StationRecord) : Option EnrichedStation :=
  match dlookup s.idImpianto pm.price_groups with
  | none => none
  | some pr =>
      match toNumeric s.Latitudine, toNumeric s.Longitudine with
      | some lat, some lon =>
          if lat ≠ 0 ∧ lon ≠ 0 ∧ (35 ≤ lat ∧ lat ≤ 48) ∧ (6 ≤ lon ∧ lon ≤ 19) then
            some { idImpianto := s.idImpianto,
                   Latitudine := lat,
                   Longitudine := lon,
                   Gestore := s.Gestore,
                   Bandiera := s.Bandiera,
                   TipoImpianto := s.TipoImpianto,
                   NomeImpianto := s.NomeImpianto,
                   Indirizzo := s.Indirizzo,
                   Comune := s.Comune,
                   Provincia := s.Provincia,
                   prices := pr,
                   priceDates := (dlookup s.idImpianto pm.price_dates).getD [] }
          else none
      | _, _ => none

/-- Lines 103-126 over the whole station dataframe: the dataframe filters
are stable, so the result is a `filterMap` in input order. -/
def cleanStations (pm : PriceState) (stations : List StationRecord) : List EnrichedStation :=
  stations.filterMap (enrichStation pm)

/-- `clean_and_merge_data` (lines 71-132): build the price dicts, then
join and clean the stations.  Any exception inside the `try` block —
concretely a non-numeric `prezzo` hit by `float` — reaches the handler at
lines 130-132 and aborts the run (`sys.exit(1)`), modelled as
`.error ()`. -/
def clean_and_merge_data (prices : List PriceRecord) (stations : List StationRecord) :
    Except Unit (List EnrichedStation) :=
  match buildPriceMaps prices with
  | .error e => .error e
  | .ok pm => .ok (cleanStations pm stations)

/-- The `properties` block of one feature (lines 149-161). -/
structure FeatureProperties where
  idImpianto : Nat
  Gestore : String
  Bandiera : String
  TipoImpianto : String
  NomeImpianto : String
  Indirizzo : String
  Comune : String
  Provincia : String
  prices : List (String × ℚ)
  priceDates : List (String × String)
  deriving DecidableEq

/-- The `geometry` block of one feature (lines 142-148). -/
structure Geometry where
  type : String
  coordinates : List ℚ
  deriving DecidableEq

/-- One GeoJSON feature (lines 140-162). -/
structure Feature where
  type : String
  geometry : Geometry
  properties : FeatureProperties
  deriving DecidableEq

/-- The emitted document (lines 166-169). -/
structure FeatureCollection where
  type : String
  features : List Feature
  deriving DecidableEq

/-- Lines 140-162: one feature per station; coordinates are emitted as
`[Longitudine, Latitudine]` (longitude first), and every optional
descriptive field defaults to the empty string via
`str` applied to `station.get` with the empty string as default. -/
def toFeature (station : EnrichedStation) : Feature :=
  { type := "Feature",
    geometry := { type := "Point",
                  coordinates := [station.Longitudine, station.Latitudine] },
    properties := { idImpianto := station.idImpianto,
                    Gestore := station.Gestore.getD "",
                    Bandiera := station.Bandiera.getD "",
                    TipoImpianto := station.TipoImpianto.getD "",
                    NomeImpianto := station.NomeImpianto.getD "",
                    Indirizzo := station.Indirizzo.getD "",
                    Comune := station.Comune.getD "",
                    Provincia := station.Provincia.getD "",
                    prices := station.prices,
                    priceDates := station.priceDates } }

/-- `create_geojson` (lines 139-171): wrap one feature per station, in
iteration order, in a `FeatureCollection`. -/
def create_geojson (stations : List EnrichedStation) : FeatureCollection :=
  { type := "FeatureCollection", features := stations.map toFeature }

/-- A row of the caller's stations dataframe after `clean_and_merge_data`
returns: the original columns plus the two columns the function assigned. -/
structure StationRow where
  base : StationRecord
  prices : Option (List (String × ℚ))
  priceDates : Option (List (String × String))
  deriving DecidableEq

/-- Observable effect of `clean_and_merge_data` on the caller's stations
dataframe: lines 103-104 assign the columns `prices` and `priceDates` in
place on the object passed in (item assignment of the `prices` and
`priceDates` columns on `stations_df`), a lookup of
each row's id in the price dicts (`none` models the NaN that `.map` puts
where the id has no entry).  Every later statement (line 107 onward)
rebinds the local name to a fresh dataframe and no longer touches the
caller's object. -/
def stationsAfterMerge (pm : PriceState) (stations : List StationRecord) : List StationRow :=
  stations.map fun s =>
    { base := s,
      prices := dlookup s.idImpianto pm.price_groups,
      priceDates := dlookup s.idImpianto pm.price_dates }

/-- A station row as it would look had the call left the caller's object
untouched: the original columns and nothing else. -/
def pristineRow (s : StationRecord) : StationRow :=
  { base := s, prices := none, priceDates := none }

/-- Specification-side update of one (station, category) cell of the price
state: first sight inserts, afterwards a strictly lower price replaces
price and date together, anything else keeps the stored entry. -/
def updEntry (cur : Option (ℚ × String)) (p : ℚ) (d : String) : ℚ × String :=
  match cur with
  | none => (p, d)
  | some (p0, d0) => if p < p0 then (p, d) else (p0, d0)

/-- Fold `updEntry` left to right over a list of observed (price, date)
pairs. -/
def runEntry (cur : Option (ℚ × String)) : List (ℚ × String) → Option (ℚ × String)
  | [] => cur
  | (p, d) :: rest => runEntry (some (updEntry cur p d)) rest

/-- Declarative minimum of a list of (price, date) pairs, the earlier pair
winning on equal prices. -/
def specMin : List (ℚ × String) → Option (ℚ × String)
  | [] => none
  | (p, d) :: rest =>
      match specMin rest with
      | none => some (p, d)
      | some (q, e) => some (if p ≤ q then (p, d) else (q, e))

/-- Resolve a stored entry against the minimum of the pairs processed
after it: a strictly lower later minimum wins, otherwise the stored entry
stays. -/
def combineEntry (e : ℚ × String) : Option (ℚ × String) → ℚ × String
  | none => e
  | some (q, d) => if q < e.1 then (q, d) else e

/-- The (price, date) pairs of the price rows that a given (station,
category) cell aggregates: rows with that station id whose raw fuel name
normalizes to that category, with their coerced price. -/
def matchEntries (sid : Nat) (cat : String) (prices : List PriceRecord) : List (ℚ × String) :=
  prices.filterMap fun r =>
    if r.idImpianto = sid ∧ get_main_fuel_category r.descCarburante = cat then
      (pyFloat r.prezzo).map fun p => (p, r.dtComu.getD "")
    else none

/-- The stored price of one (station, category) cell. -/
def priceEntry (st : PriceState) (sid : Nat) (cat : String) : Option ℚ :=
  (dlookup sid st.price_groups).bind (dlookup cat)

/-- The stored date of one (station, category) cell. -/
def dateEntry (st : PriceState) (sid : Nat) (cat : String) : Option String :=
  (dlookup sid st.price_dates).bind (dlookup cat)

/-- The stored (price, date) pair of one (station, category) cell. -/
def pair2 (st : PriceState) (sid : Nat) (cat : String) : Option (ℚ × String) :=
  match priceEntry st sid cat, dateEntry st sid cat with
  | some p, some d => some (p, d)
  | _, _ => none

/-- Structural invariant of the two price dicts: identical outer key
sequences, identical inner key sequences, and no empty inner dict. -/
def WF (st : PriceState) : Prop :=
  st.price_groups.map Prod.fst = st.price_dates.map Prod.fst ∧
  (∀ sid gI dI, dlookup sid st.price_groups = some gI →
      dlookup sid st.price_dates = some dI → gI.map Prod.fst = dI.map Prod.fst) ∧
  (∀ sid gI, dlookup sid st.price_groups = some gI → gI ≠ [])

/-- A station whose coordinates the cleaning of lines 111-126 rejects:
failed coercion, a zero coordinate, or a coordinate outside the closed
bounding box. -/
def invalidCoords (s : StationRecord) : Prop :=
  toNumeric s.Latitudine = none ∨ toNumeric s.Longitudine = none ∨
  ∃ lat lon, toNumeric s.Latitudine = some lat ∧ toNumeric s.Longitudine = some lon ∧
    (lat = 0 ∨ lon = 0 ∨ lat < 35 ∨ 48 < lat ∨ lon < 6 ∨ 19 < lon)

/-- Price row: station 1, `Benzina` at 1899 (thousandths), dated `d1`. -/
def exGoodRow : PriceRecord :=
  { idImpianto := 1, descCarburante := "Benzina", prezzo := .num 1899, dtComu := some "d1" }

/-- Price row: station 1, `Benzina` at 1750 (thousandths), dated `d2`. -/
def exCheapRow : PriceRecord :=
  { idImpianto := 1, descCarburante := "Benzina", prezzo := .num 1750, dtComu := some "d2" }

/-- Price row whose `prezzo` cell is not numeric. -/
def exBadRow : PriceRecord :=
  { idImpianto := 2, descCarburante := "Gasolio", prezzo := .str "n.d.", dtComu := some "d3" }

/-- A Rome-like station with valid coordinates, id 1. -/
def exStation : StationRecord :=
  { idImpianto := 1, Latitudine := .num 41, Longitudine := .num 12,
    Gestore := some "Op", Bandiera := none, TipoImpianto := none, NomeImpianto := none,
    Indirizzo := none, Comune := none, Provincia := none }

/-- A station with latitude 0 (invalid), id 1. -/
def exZeroStation : StationRecord :=
  { idImpianto := 1, Latitudine := .num 0, Longitudine := .num 12,
    Gestore := none, Bandiera := none, TipoImpianto := none, NomeImpianto := none,
    Indirizzo := none, Comune := none, Provincia := none }

/-- A station whose id 99 appears in no example price row. -/
def exStation99 : StationRecord :=
  { idImpianto := 99, Latitudine := .num 41, Longitudine := .num 12,
    Gestore := none, Bandiera := none, TipoImpianto := none, NomeImpianto := none,
    Indirizzo := none, Comune := none, Provincia := none }

/-- Price state built from `[exGoodRow, exCheapRow]`. -/
def exPM : PriceState :=
  match buildPriceMaps [exGoodRow, exCheapRow] with
  | .ok pm => pm
  | .error _ => { price_groups := [], price_dates := [] }

/-- Price state built from `[exGoodRow]` alone. -/
def exPM1 : PriceState :=
  match buildPriceMaps [exGoodRow] with
  | .ok pm => pm
  | .error _ => { price_groups := [], price_dates := [] }

/-- The enriched station that `exStation` becomes under `exPM`. -/
def exEnrichedOut : EnrichedStation :=
  { idImpianto := 1, Latitudine := 41, Longitudine := 12,
    Gestore := some "Op", Bandiera := none, TipoImpianto := none, NomeImpianto := none,
    Indirizzo := none, Comune := none, Provincia := none,
    prices := [("Benzina", 1750)], priceDates := [("Benzina", "d2")] }

/-- The enriched station that `exStation` becomes under `exPM1`. -/
def exEnrichedOut1 : EnrichedStation :=
  { idImpianto := 1, Latitudine := 41, Longitudine := 12,
    Gestore := some "Op", Bandiera := none, TipoImpianto := none, NomeImpianto := none,
    Indirizzo := none, Comune := none, Provincia := none,
    prices := [("Benzina", 1899)], priceDates := [("Benzina", "d1")] }

/-- An enriched station with every optional descriptive field absent. -/
def exBareStation : EnrichedStation :=
  { idImpianto := 7, Latitudine := 41, Longitudine := 12,
    Gestore := none, Bandiera := none, TipoImpianto := none, NomeImpianto := none,
    Indirizzo := none, Comune := none, Provincia := none,
    prices := [("GPL", 75)], priceDates := [("GPL", "d9")] }

/-! ## Association-list dictionary lemmas -/

@[simp] theorem dlookup_nil {α β : Type} [DecidableEq α] (k : α) :
    dlookup (β := β) k [] = none := rfl

@[simp] theorem dlookup_dinsert_self {α β : Type} [DecidableEq α] (k : α) (v : β)
    (l : List (α × β)) : dlookup k (dinsert k v l) = some v := by
  induction l with
  | nil => simp [dinsert, dlookup]
  | cons hd tl ih =>
    obtain ⟨k', v'⟩ := hd
    by_cases h : k' = k <;> simp [dinsert, dlookup, h, ih]

theorem dlookup_dinsert_ne {α β : Type} [DecidableEq α] {k k' : α} (v : β)
    (l : List (α × β)) (h : k' ≠ k) : dlookup k' (dinsert k v l) = dlookup k' l := by
  induction l with
  | nil => simp [dinsert, dlookup, Ne.symm h]
  | cons hd tl ih =>
    obtain ⟨k0, v0⟩ := hd
    by_cases h0 : k0 = k
    · subst h0
      simp [dinsert, dlookup, Ne.symm h]
    · simp [dinsert, dlookup, h0, ih]

theorem dinsert_ne_nil {α β : Type} [DecidableEq α] (k : α) (v : β)
    (l : List (α × β)) : dinsert k v l ≠ [] := by
  cases l with
  | nil => simp [dinsert]
  | cons hd tl =>
    obtain ⟨k', v'⟩ := hd
    by_cases h : k' = k <;> simp [dinsert, h]

theorem keys_dinsert {α β : Type} [DecidableEq α] (k : α) (v : β)
    (l : List (α × β)) : (dinsert k v l).map Prod.fst = keyIns k (l.map Prod.fst) := by
  induction l with
  | nil => simp [dinsert, keyIns]
  | cons hd tl ih =>
    obtain ⟨k', v'⟩ := hd
    by_cases h : k' = k <;> simp [dinsert, keyIns, h, ih]

theorem dlookup_isSome_of_keys_eq {α β γ : Type} [DecidableEq α]
    {l : List (α × β)} {l' : List (α × γ)}
    (h : l.map Prod.fst = l'.map Prod.fst) (k : α) :
    (dlookup k l).isSome = (dlookup k l').isSome := by
  induction l generalizing l' with
  | nil =>
    cases l' with
    | nil => rfl
    | cons hd tl => simp at h
  | cons hd tl ih =>
    cases l' with
    | nil => simp at h
    | cons hd' tl' =>
      obtain ⟨k1, v1⟩ := hd
      obtain ⟨k2, v2⟩ := hd'
      simp at h
      obtain ⟨rfl, htl⟩ := h
      by_cases hk : k1 = k <;> simp [dlookup, hk, ih htl]

/-! ## C1: fuel categorization -/

/-- C1: for every raw fuel string listed in the static `FUEL_CATEGORIES`
table, `get_main_fuel_category` returns that entry's canonical category,
and for every string not listed in any entry it returns the input string
unchanged.  (The function is total, so it never throws and never drops
data.) -/
theorem C1_categorize_table_and_identity :
    (∀ p ∈ FUEL_CATEGORIES, ∀ f ∈ p.2, get_main_fuel_category f = p.1) ∧
    (∀ s : String, (∀ p ∈ FUEL_CATEGORIES, s ∉ p.2) → get_main_fuel_category s = s) := by
  constructor
  · decide
  · intro s hs
    unfold get_main_fuel_category
    have hfind : FUEL_CATEGORIES.find? (fun p => p.2.contains s) = none := by
      rw [List.find?_eq_none]
      intro p hp
      simpa using hs p hp
    rw [hfind]

/-- Witness for C1: a listed spelling maps to its category, an unlisted
one maps to itself. -/
theorem C1_witness :
    get_main_fuel_category "L-GNC" = "Metano" ∧
    get_main_fuel_category "Idrogeno" = "Idrogeno" :=
  ⟨C1_categorize_table_and_identity.1 ("Metano", ["Metano", "L-GNC"]) (by decide)
      "L-GNC" (by decide),
   C1_categorize_table_and_identity.2 "Idrogeno" (by decide)⟩

/-! ## Price-loop characterization -/

/-- A row for a station not yet seen creates the inner dicts and stores the
entry in both. -/
theorem applyRow_eq_fresh {st : PriceState} {sid : Nat} {mc : String} {p : ℚ} {d : String}
    (hg : dlookup sid st.price_groups = none) :
    applyRow st sid mc p d =
      { price_groups := dinsert sid (dinsert mc p []) (dinsert sid [] st.price_groups),
        price_dates := dinsert sid (dinsert mc d []) (dinsert sid [] st.price_dates) } := by
  unfold applyRow
  simp [hg, dlookup_dinsert_self]

/-- A first price for a known station and a new category inserts into both
inner dicts. -/
theorem applyRow_eq_insert {st : PriceState} {sid : Nat} {mc : String} {p : ℚ} {d : String}
    {gI : List (String × ℚ)} {dI : List (String × String)}
    (hg : dlookup sid st.price_groups = some gI)
    (hd : dlookup sid st.price_dates = some dI)
    (hmc : dlookup mc gI = none) :
    applyRow st sid mc p d =
      { price_groups := dinsert sid (dinsert mc p gI) st.price_groups,
        price_dates := dinsert sid (dinsert mc d dI) st.price_dates } := by
  unfold applyRow
  simp [hg, hd, hmc]

/-- A strictly lower price replaces the stored price and date. -/
theorem applyRow_eq_lower {st : PriceState} {sid : Nat} {mc : String} {p : ℚ} {d : String}
    {gI : List (String × ℚ)} {dI : List (String × String)} {p0 : ℚ}
    (hg : dlookup sid st.price_groups = some gI)
    (hd : dlookup sid st.price_dates = some dI)
    (hmc : dlookup mc gI = some p0) (hlt : p < p0) :
    applyRow st sid mc p d =
      { price_groups := dinsert sid (dinsert mc p gI) st.price_groups,
        price_dates := dinsert sid (dinsert mc d dI) st.price_dates } := by
  unfold applyRow
  simp [hg, hd, hmc, hlt]

/-- A price not strictly lower than the stored one changes nothing. -/
theorem applyRow_eq_keep {st : PriceState} {sid : Nat} {mc : String} {p : ℚ} {d : String}
    {gI : List (String × ℚ)} {p0 : ℚ}
    (hg : dlookup sid st.price_groups = some gI)
    (hmc : dlookup mc gI = some p0) (hge : ¬ p < p0) :
    applyRow st sid mc p d = st := by
  unfold applyRow
  simp [hg, hmc, hge]

/-- One loop iteration preserves the structural invariant, adds exactly the
row's station id as outer key, and updates exactly the row's (station,
category) cell by `updEntry`. -/
theorem applyRow_spec {st : PriceState} (hwf : WF st) (sid : Nat) (mc : String)
    (p : ℚ) (d : String) :
    WF (applyRow st sid mc p d) ∧
    (∀ s, dlookup s (applyRow st sid mc p d).price_groups = none ↔
        (dlookup s st.price_groups = none ∧ s ≠ sid)) ∧
    (∀ s c, pair2 (applyRow st sid mc p d) s c =
        if s = sid ∧ c = mc then some (updEntry (pair2 st s c) p d) else pair2 st s c) := by
  obtain ⟨hkeys, hinner, hne⟩ := hwf
  by_cases hpres : (dlookup sid st.price_groups).isSome
  · -- the station already has inner dicts
    obtain ⟨gI, hg⟩ := Option.isSome_iff_exists.mp hpres
    have hdsome : (dlookup sid st.price_dates).isSome := by
      rw [← dlookup_isSome_of_keys_eq hkeys sid, hg]; rfl
    obtain ⟨dI, hd⟩ := Option.isSome_iff_exists.mp hdsome
    have hik : gI.map Prod.fst = dI.map Prod.fst := hinner sid gI dI hg hd
    cases hmc : dlookup mc gI with
    | none =>
      have hmcD : dlookup mc dI = none := by
        have h2 := dlookup_isSome_of_keys_eq hik mc
        rw [hmc] at h2
        exact Option.not_isSome_iff_eq_none.mp (by rw [← h2]; simp)
      rw [applyRow_eq_insert hg hd hmc]
      refine ⟨⟨?_, ?_, ?_⟩, ?_, ?_⟩
      · simp [keys_dinsert, hkeys]
      · intro s gI' dI' hg' hd'
        by_cases hs : s = sid
        · subst hs
          rw [dlookup_dinsert_self] at hg' hd'
          obtain rfl := Option.some_injective _ hg'
          obtain rfl := Option.some_injective _ hd'
          simp [keys_dinsert, hik]
        · rw [dlookup_dinsert_ne _ _ hs] at hg' hd'
          exact hinner s gI' dI' hg' hd'
      · intro s gI' hg'
        by_cases hs : s = sid
        · subst hs
          rw [dlookup_dinsert_self] at hg'
          obtain rfl := Option.some_injective _ hg'
          exact dinsert_ne_nil _ _ _
        · rw [dlookup_dinsert_ne _ _ hs] at hg'
          exact hne s gI' hg'
      · intro s
        by_cases hs : s = sid
        · subst hs
          simp [dlookup_dinsert_self, hg]
        · rw [dlookup_dinsert_ne _ _ hs]
          simp [hs]
      · intro s c
        by_cases hs : s = sid
        · subst hs
          by_cases hc : c = mc
          · subst hc
            simp [pair2, priceEntry, dateEntry, dlookup_dinsert_self, hg, hd, hmc, hmcD,
              updEntry]
          · simp only [pair2, priceEntry, dateEntry, dlookup_dinsert_self, hg, hd,
              Option.some_bind, hc, and_false, if_false]
            rw [dlookup_dinsert_ne _ _ hc, dlookup_dinsert_ne _ _ hc]
        · simp only [pair2, priceEntry, dateEntry, hs, false_and, if_false]
          rw [dlookup_dinsert_ne _ _ hs, dlookup_dinsert_ne _ _ hs]
    | some p0 =>
      have hmcDsome : (dlookup mc dI).isSome := by
        rw [← dlookup_isSome_of_keys_eq hik mc, hmc]; rfl
      obtain ⟨d0, hmcD⟩ := Option.isSome_iff_exists.mp hmcDsome
      by_cases hlt : p < p0
      · rw [applyRow_eq_lower hg hd hmc hlt]
        refine ⟨⟨?_, ?_, ?_⟩, ?_, ?_⟩
        · simp [keys_dinsert, hkeys]
        · intro s gI' dI' hg' hd'
          by_cases hs : s = sid
          · subst hs
            rw [dlookup_dinsert_self] at hg' hd'
            obtain rfl := Option.some_injective _ hg'
            obtain rfl := Option.some_injective _ hd'
            simp [keys_dinsert, hik]
          · rw [dlookup_dinsert_ne _ _ hs] at hg' hd'
            exact hinner s gI' dI' hg' hd'
        · intro s gI' hg'
          by_cases hs : s = sid
          · subst hs
            rw [dlookup_dinsert_self] at hg'
            obtain rfl := Option.some_injective _ hg'
            exact dinsert_ne_nil _ _ _
          · rw [dlookup_dinsert_ne _ _ hs] at hg'
            exact hne s gI' hg'
        · intro s
          by_cases hs : s = sid
          · subst hs
            simp [dlookup_dinsert_self, hg]
          · rw [dlookup_dinsert_ne _ _ hs]
            simp [hs]
        · intro s c
          by_cases hs : s = sid
          · subst hs
            by_cases hc : c = mc
            · subst hc
              simp [pair2, priceEntry, dateEntry, dlookup_dinsert_self, hg, hd, hmc, hmcD,
                updEntry, hlt]
            · simp only [pair2, priceEntry, dateEntry, dlookup_dinsert_self, hg, hd,
                Option.some_bind, hc, and_false, if_false]
              rw [dlookup_dinsert_ne _ _ hc, dlookup_dinsert_ne _ _ hc]
          · simp only [pair2, priceEntry, dateEntry, hs, false_and, if_false]
            rw [dlookup_dinsert_ne _ _ hs, dlookup_dinsert_ne _ _ hs]
      · rw [applyRow_eq_keep hg hmc hlt]
        refine ⟨⟨hkeys, hinner, hne⟩, ?_, ?_⟩
        · intro s
          by_cases hs : s = sid
          · subst hs
            simp [hg]
          · simp [hs]
        · intro s c
          by_cases hs : s = sid
          · subst hs
            by_cases hc : c = mc
            · subst hc
              simp [pair2, priceEntry, dateEntry, hg, hd, hmc, hmcD, updEntry, hlt]
            · simp [hc]
          · simp [hs]
  · -- first sight of the station: fresh empty inner dicts
    have hg : dlookup sid st.price_groups = none := Option.not_isSome_iff_eq_none.mp hpres
    have hd : dlookup sid st.price_dates = none := by
      have h2 := dlookup_isSome_of_keys_eq hkeys sid
      rw [hg] at h2
      exact Option.not_isSome_iff_eq_none.mp (by rw [← h2]; simp)
    rw [applyRow_eq_fresh hg]
    refine ⟨⟨?_, ?_, ?_⟩, ?_, ?_⟩
    · simp [keys_dinsert, hkeys]
    · intro s gI' dI' hg' hd'
      by_cases hs : s = sid
      · subst hs
        rw [dlookup_dinsert_self] at hg' hd'
        obtain rfl := Option.some_injective _ hg'
        obtain rfl := Option.some_injective _ hd'
        simp [keys_dinsert]
      · rw [dlookup_dinsert_ne _ _ hs, dlookup_dinsert_ne _ _ hs] at hg' hd'
        exact hinner s gI' dI' hg' hd'
    · intro s gI' hg'
      by_cases hs : s = sid
      · subst hs
        rw [dlookup_dinsert_self] at hg'
        obtain rfl := Option.some_injective _ hg'
        exact dinsert_ne_nil _ _ _
      · rw [dlookup_dinsert_ne _ _ hs, dlookup_dinsert_ne _ _ hs] at hg'
        exact hne s gI' hg'
    · intro s
      by_cases hs : s = sid
      · subst hs
        simp [dlookup_dinsert_self, hg]
      · rw [dlookup_dinsert_ne _ _ hs, dlookup_dinsert_ne _ _ hs]
        simp [hs]
    · intro s c
      by_cases hs : s = sid
      · subst hs
        by_cases hc : c = mc
        · subst hc
          simp [pair2, priceEntry, dateEntry, dlookup_dinsert_self, hg, hd, updEntry]
        · simp only [pair2, priceEntry, dateEntry, dlookup_dinsert_self,
            Option.some_bind, hc, and_false, if_false, hg, hd, Option.none_bind]
          rw [dlookup_dinsert_ne _ _ hc, dlookup_dinsert_ne _ _ hc]
          simp [dlookup]
      · simp only [pair2, priceEntry, dateEntry, hs, false_and, if_false]
        rw [dlookup_dinsert_ne _ _ hs, dlookup_dinsert_ne _ _ hs,
          dlookup_dinsert_ne _ _ hs, dlookup_dinsert_ne _ _ hs]

/-- The empty pair of dicts is well formed. -/
theorem WF_init : WF { price_groups := [], price_dates := [] } := by
  refine ⟨rfl, ?_, ?_⟩
  · intro sid gI dI hg _
    simp at hg
  · intro sid gI hg
    simp at hg

/-- The whole price loop: every (station, category) cell of the final state
is the left fold of `updEntry` over the matching rows, and the outer keys
are exactly the station ids seen. -/
theorem processPrices_spec {rs : List PriceRecord} {st st' : PriceState}
    (hwf : WF st) (h : processPrices st rs = .ok st') :
    WF st' ∧
    (∀ s, dlookup s st'.price_groups = none ↔
        (dlookup s st.price_groups = none ∧ ∀ r ∈ rs, r.idImpianto ≠ s)) ∧
    (∀ s c, pair2 st' s c = runEntry (pair2 st s c) (matchEntries s c rs)) := by
  induction rs generalizing st with
  | nil =>
    simp only [processPrices, Except.ok.injEq] at h
    subst h
    exact ⟨hwf, fun s => by simp, fun s c => by simp [matchEntries, runEntry]⟩
  | cons r rs ih =>
    cases hp : pyFloat r.prezzo with
    | none =>
      simp only [processPrices, processPriceRow, hp] at h
      exact Except.noConfusion h
    | some p =>
      simp only [processPrices, processPriceRow, hp] at h
      obtain ⟨hwf1, houter1, hpair1⟩ := applyRow_spec hwf r.idImpianto
        (get_main_fuel_category r.descCarburante) p (r.dtComu.getD "")
      obtain ⟨hwf', houter', hpair'⟩ := ih hwf1 h
      refine ⟨hwf', ?_, ?_⟩
      · intro s
        rw [houter' s, houter1 s]
        constructor
        · rintro ⟨⟨h1, h2⟩, h3⟩
          refine ⟨h1, ?_⟩
          intro r' hr'
          rcases List.mem_cons.mp hr' with rfl | hr'
          · exact fun he => h2 he.symm
          · exact h3 r' hr'
        · rintro ⟨h1, h2⟩
          refine ⟨⟨h1, fun he => h2 r (List.mem_cons_self r rs) he.symm⟩, ?_⟩
          intro r' hr'
          exact h2 r' (List.mem_cons_of_mem r hr')
      · intro s c
        rw [hpair' s c, hpair1 s c]
        by_cases hs : r.idImpianto = s
        · by_cases hc : get_main_fuel_category r.descCarburante = c
          · rw [if_pos ⟨hs.symm, hc.symm⟩]
            have hm : matchEntries s c (r :: rs) =
                (p, r.dtComu.getD "") :: matchEntries s c rs := by
              simp [matchEntries, List.filterMap_cons, hs, hc, hp]
            rw [hm]
            simp only [runEntry]
          · rw [if_neg (by rintro ⟨h1, rfl⟩; exact hc rfl)]
            have hm : matchEntries s c (r :: rs) = matchEntries s c rs := by
              simp [matchEntries, List.filterMap_cons, hc]
            rw [hm]
        · rw [if_neg (by rintro ⟨rfl, h2⟩; exact hs rfl)]
          have hm : matchEntries s c (r :: rs) = matchEntries s c rs := by
            simp [matchEntries, List.filterMap_cons, hs]
          rw [hm]

/-- A left fold of `updEntry` from a stored entry resolves to that entry
combined with the declarative minimum of the rest. -/
theorem runEntry_some (e : ℚ × String) (l : List (ℚ × String)) :
    runEntry (some e) l = some (combineEntry e (specMin l)) := by
  induction l generalizing e with
  | nil => simp [runEntry, specMin, combineEntry]
  | cons hd tl ih =>
    obtain ⟨p, d⟩ := hd
    obtain ⟨p0, d0⟩ := e
    rw [runEntry, ih]
    cases hsm : specMin tl with
    | none =>
      by_cases h1 : p < p0 <;>
        simp [specMin, hsm, combineEntry, updEntry, h1]
    | some qe =>
      obtain ⟨q, e0⟩ := qe
      by_cases h1 : p < p0
      · by_cases h2 : p ≤ q
        · simp [specMin, hsm, combineEntry, updEntry, h1, h2, not_lt.mpr h2]
        · have h3 : q < p0 := lt_trans (not_le.mp h2) h1
          simp [specMin, hsm, combineEntry, updEntry, h1, h2, h3, not_le.mp h2]
      · by_cases h2 : p ≤ q
        · have h3 : ¬ q < p0 := not_lt.mpr (le_trans (not_lt.mp h1) h2)
          simp [specMin, hsm, combineEntry, updEntry, h1, h2, h3]
        · by_cases h3 : q < p0 <;>
            simp [specMin, hsm, combineEntry, updEntry, h1, h2, h3, not_le.mp h2]

/-- The left fold of `updEntry` from an empty cell is the declarative
minimum with first-seen tie-break. -/
theorem runEntry_none (l : List (ℚ × String)) : runEntry none l = specMin l := by
  cases l with
  | nil => rfl
  | cons hd tl =>
    obtain ⟨p, d⟩ := hd
    rw [runEntry, show updEntry none p d = (p, d) from rfl, runEntry_some]
    cases hsm : specMin tl with
    | none => simp [specMin, hsm, combineEntry]
    | some qe =>
      obtain ⟨q, e0⟩ := qe
      by_cases h : p ≤ q
      · simp [specMin, hsm, combineEntry, h, not_lt.mpr h]
      · simp [specMin, hsm, combineEntry, h, not_le.mp h]

/-- `specMin` is `none` exactly on the empty list. -/
theorem specMin_eq_none {l : List (ℚ × String)} : specMin l = none ↔ l = [] := by
  cases l with
  | nil => simp [specMin]
  | cons hd tl =>
    obtain ⟨p, d⟩ := hd
    simp only [specMin]
    cases hsm : specMin tl with
    | none => simp
    | some qe =>
      obtain ⟨q, e⟩ := qe
      simp

/-- The declarative minimum is a lower bound and is the first element
attaining its price. -/
theorem specMin_spec {l : List (ℚ × String)} {q : ℚ} {e : String}
    (h : specMin l = some (q, e)) :
    (∀ x ∈ l, q ≤ x.1) ∧ l.find? (fun x => decide (x.1 = q)) = some (q, e) := by
  induction l generalizing q e with
  | nil => simp [specMin] at h
  | cons hd tl ih =>
    obtain ⟨p, d⟩ := hd
    cases hsm : specMin tl with
    | none =>
      obtain rfl : tl = [] := specMin_eq_none.mp hsm
      simp only [specMin, hsm] at h
      obtain ⟨rfl, rfl⟩ := Prod.mk.inj (Option.some_injective _ h)
      constructor
      · intro x hx
        simp at hx
        subst hx
        exact le_refl _
      · simp [List.find?]
    | some qe =>
      obtain ⟨q', e'⟩ := qe
      obtain ⟨ihmin, ihfind⟩ := ih hsm
      simp only [specMin, hsm] at h
      by_cases hle : p ≤ q'
      · rw [if_pos hle] at h
        obtain ⟨rfl, rfl⟩ := Option.some_injective _ h |> Prod.mk.inj
        constructor
        · intro x hx
          rcases List.mem_cons.mp hx with rfl | hx
        
          · exact le_refl _
          · exact le_trans hle (ihmin x hx)
        · simp [List.find?]
      · rw [if_neg hle] at h
        obtain ⟨rfl, rfl⟩ := Option.some_injective _ h |> Prod.mk.inj
        have hne : p ≠ q' := ne_of_gt (not_le.mp hle)
        constructor
        · intro x hx
          rcases List.mem_cons.mp hx with rfl | hx
          · exact le_of_lt (not_le.mp hle)
          · exact ihmin x hx
        · rw [List.find?_cons]
          simp [hne, ihfind]

/-- `buildPriceMaps` from empty dicts: outer keys are exactly the station
ids of the price rows, and each cell is the first-seen-wins minimum of its
matching rows. -/
theorem buildPriceMaps_spec {prices : List PriceRecord} {st : PriceState}
    (h : buildPriceMaps prices = .ok st) :
    WF st ∧
    (∀ s, dlookup s st.price_groups = none ↔ ∀ r ∈ prices, r.idImpianto ≠ s) ∧
    (∀ s c, pair2 st s c = specMin (matchEntries s c prices)) := by
  obtain ⟨hwf, houter, hpair⟩ := processPrices_spec WF_init h
  refine ⟨hwf, ?_, ?_⟩
  · intro s
    rw [houter s]
    simp
  · intro s c
    have hinit : pair2 { price_groups := [], price_dates := [] } s c = none := rfl
    rw [hpair s c, hinit, runEntry_none]

/-- C2: after processing all price records, a station's cell for a
canonical category holds the minimum price among all its price rows whose
raw fuel name normalizes to that category; a later row replaces the stored
entry only if its price is strictly lower, so the stored (price, date)
pair is the first matching row attaining the minimum price — on equal
prices the first-seen row's price and date are kept. -/
theorem C2_min_price_per_category {prices : List PriceRecord} {st : PriceState}
    (h : buildPriceMaps prices = .ok st) (sid : Nat) (cat : String) :
    (matchEntries sid cat prices = [] → pair2 st sid cat = none) ∧
    (matchEntries sid cat prices ≠ [] → (pair2 st sid cat).isSome) ∧
    (∀ q e, pair2 st sid cat = some (q, e) →
        (q, e) ∈ matchEntries sid cat prices ∧
        (∀ x ∈ matchEntries sid cat prices, q ≤ x.1) ∧
        (matchEntries sid cat prices).find? (fun x => decide (x.1 = q)) = some (q, e)) := by
  obtain ⟨-, -, hpair⟩ := buildPriceMaps_spec h
  have hp := hpair sid cat
  refine ⟨?_, ?_, ?_⟩
  · intro hnil
    rw [hp, hnil]
    rfl
  · intro hnil
    rw [hp]
    cases hsm : specMin (matchEntries sid cat prices) with
    | none => exact absurd (specMin_eq_none.mp hsm) hnil
    | some qe => rfl
  · intro q e hqe
    rw [hp] at hqe
    obtain ⟨hmin, hfind⟩ := specMin_spec hqe
    exact ⟨List.mem_of_find?_eq_some hfind, hmin, hfind⟩

/-- Witness for C2 at the two-row example of the specification: the stored
pair is the cheaper row's price and date. -/
theorem C2_witness :
    ((1750 : ℚ), "d2") ∈ matchEntries 1 "Benzina" [exGoodRow, exCheapRow] ∧
    (∀ x ∈ matchEntries 1 "Benzina" [exGoodRow, exCheapRow], (1750 : ℚ) ≤ x.1) ∧
    (matchEntries 1 "Benzina" [exGoodRow, exCheapRow]).find?
        (fun x => decide (x.1 = (1750 : ℚ))) = some (1750, "d2") :=
  (@C2_min_price_per_category [exGoodRow, exCheapRow] exPM rfl 1
      "Benzina").2.2 1750 "d2" (by decide)

/-- C10: the price map and the last-updated-date map built by the price
loop have exactly the same key structure, outer and inner: a canonical
category has a stored price if and only if it has a stored date. -/
theorem C10_price_and_date_keys_agree {prices : List PriceRecord} {st : PriceState}
    (h : buildPriceMaps prices = .ok st) :
    st.price_groups.map Prod.fst = st.price_dates.map Prod.fst ∧
    (∀ sid gI dI, dlookup sid st.price_groups = some gI →
        dlookup sid st.price_dates = some dI → gI.map Prod.fst = dI.map Prod.fst) ∧
    (∀ sid cat, (priceEntry st sid cat).isSome ↔ (dateEntry st sid cat).isSome) := by
  obtain ⟨⟨hkeys, hinner, hne⟩, -, -⟩ := buildPriceMaps_spec h
  refine ⟨hkeys, hinner, ?_⟩
  intro sid cat
  unfold priceEntry dateEntry
  cases hg : dlookup sid st.price_groups with
  | none =>
    have hd : dlookup sid st.price_dates = none := by
      have h2 := dlookup_isSome_of_keys_eq hkeys sid
      rw [hg] at h2
      exact Option.not_isSome_iff_eq_none.mp (by rw [← h2]; simp)
    rw [hd]
    simp
  | some gI =>
    have hdsome : (dlookup sid st.price_dates).isSome := by
      rw [← dlookup_isSome_of_keys_eq hkeys sid, hg]; rfl
    obtain ⟨dI, hd⟩ := Option.isSome_iff_exists.mp hdsome
    rw [hd]
    simp only [Option.some_bind]
    rw [dlookup_isSome_of_keys_eq (hinner sid gI dI hg hd) cat]

/-- Witness for C10 on a one-row run. -/
theorem C10_witness :
    ((priceEntry exPM1 1 "Benzina").isSome ↔ (dateEntry exPM1 1 "Benzina").isSome) ∧
    exPM1.price_groups.map Prod.fst = exPM1.price_dates.map Prod.fst :=
  ⟨(@C10_price_and_date_keys_agree [exGoodRow] exPM1 rfl).2.2 1 "Benzina",
   (@C10_price_and_date_keys_agree [exGoodRow] exPM1 rfl).1⟩

/-- C4: a station whose identifier appears in no price record is excluded
entirely from the merge result, and every station that survives carries at
least one price entry. -/
theorem C4_no_price_no_station {prices : List PriceRecord} {stations : List StationRecord}
    {st : PriceState} (h : buildPriceMaps prices = .ok st) :
    (∀ s ∈ stations, (∀ r ∈ prices, r.idImpianto ≠ s.idImpianto) →
        enrichStation st s = none) ∧
    (∀ e ∈ cleanStations st stations, e.prices ≠ []) := by
  obtain ⟨⟨hkeys, hinner, hne⟩, houter, -⟩ := buildPriceMaps_spec h
  constructor
  · intro s _ habs
    have hg : dlookup s.idImpianto st.price_groups = none :=
      (houter s.idImpianto).mpr habs
    unfold enrichStation
    rw [hg]
  · intro e he
    obtain ⟨s, hs, hes⟩ := List.mem_filterMap.mp he
    unfold enrichStation at hes
    cases hg : dlookup s.idImpianto st.price_groups with
    | none =>
      rw [hg] at hes
      exact Option.noConfusion hes
    | some gI =>
      rw [hg] at hes
      cases hlat : toNumeric s.Latitudine with
      | none =>
        simp only [hlat] at hes
        exact Option.noConfusion hes
      | some lat =>
        cases hlon : toNumeric s.Longitudine with
        | none =>
          simp only [hlat, hlon] at hes
          exact Option.noConfusion hes
        | some lon =>
          simp only [hlat, hlon] at hes
          by_cases hcond : (lat ≠ 0 ∧ lon ≠ 0 ∧ (35 ≤ lat ∧ lat ≤ 48) ∧ (6 ≤ lon ∧ lon ≤ 19))
          · rw [if_pos hcond] at hes
            obtain rfl := Option.some_injective _ hes
            exact hne s.idImpianto gI hg
          · rw [if_neg hcond] at hes
            exact Option.noConfusion hes

/-- Witness for C4: station 99 has no price row and is dropped; the
surviving station has a non-empty price dict. -/
theorem C4_witness :
    enrichStation exPM1 exStation99 = none ∧ exEnrichedOut1.prices ≠ [] :=
  ⟨(@C4_no_price_no_station [exGoodRow] [exStation99] exPM1 rfl).1
      exStation99 (by decide) (by decide),
   (@C4_no_price_no_station [exGoodRow] [exStation] exPM1 rfl).2
      exEnrichedOut1 (by decide)⟩

/-- C3: every station record in the merge output has coordinates that
coerced successfully, both non-zero, latitude within [35, 48] and
longitude within [6, 19]; any station failing coercion, with a zero
coordinate, or outside either closed interval is dropped. -/
theorem C3_coordinate_filter (pm : PriceState) (stations : List StationRecord) :
    (∀ e ∈ cleanStations pm stations,
        ∃ s ∈ stations,
          toNumeric s.Latitudine = some e.Latitudine ∧
          toNumeric s.Longitudine = some e.Longitudine ∧
          e.Latitudine ≠ 0 ∧ e.Longitudine ≠ 0 ∧
          35 ≤ e.Latitudine ∧ e.Latitudine ≤ 48 ∧
          6 ≤ e.Longitudine ∧ e.Longitudine ≤ 19) ∧
    (∀ s, invalidCoords s → enrichStation pm s = none) := by
  constructor
  · intro e he
    obtain ⟨s, hs, hes⟩ := List.mem_filterMap.mp he
    refine ⟨s, hs, ?_⟩
    unfold enrichStation at hes
    cases hg : dlookup s.idImpianto pm.price_groups with
    | none =>
      rw [hg] at hes
      exact Option.noConfusion hes
    | some gI =>
      rw [hg] at hes
      cases hlat : toNumeric s.Latitudine with
      | none =>
        simp only [hlat] at hes
        exact Option.noConfusion hes
      | some lat =>
        cases hlon : toNumeric s.Longitudine with
        | none =>
          simp only [hlat, hlon] at hes
          exact Option.noConfusion hes
        | some lon =>
          simp only [hlat, hlon] at hes
          by_cases hcond : (lat ≠ 0 ∧ lon ≠ 0 ∧ (35 ≤ lat ∧ lat ≤ 48) ∧ (6 ≤ lon ∧ lon ≤ 19))
          · rw [if_pos hcond] at hes
            obtain rfl := Option.some_injective _ hes
            obtain ⟨h1, h2, ⟨h3, h4⟩, h5, h6⟩ := hcond
            exact ⟨rfl, rfl, h1, h2, h3, h4, h5, h6⟩
          · rw [if_neg hcond] at hes
            exact Option.noConfusion hes
  · intro s hbad
    unfold enrichStation
    cases hg : dlookup s.idImpianto pm.price_groups with
    | none => rfl
    | some gI =>
      rcases hbad with hlat | hlon | ⟨lat, lon, hlat, hlon, hbad⟩
      · simp only [hlat]
      · cases hlat2 : toNumeric s.Latitudine with
        | none => simp only [hlat2]
        | some lat => simp only [hlat2, hlon]
      · simp only [hlat, hlon]
        rw [if_neg]
        rintro ⟨h1, h2, ⟨h3, h4⟩, h5, h6⟩
        rcases hbad with hb | hb | hb | hb | hb | hb
        · exact h1 hb
        · exact h2 hb
        · exact absurd h3 (not_le.mpr hb)
        · exact absurd h4 (not_le.mpr hb)
        · exact absurd h5 (not_le.mpr hb)
        · exact absurd h6 (not_le.mpr hb)

/-- Witness for C3: the Rome-like station passes the filter, the
zero-latitude station is dropped. -/
theorem C3_witness :
    (∃ s ∈ [exStation],
        toNumeric s.Latitudine = some exEnrichedOut.Latitudine ∧
        toNumeric s.Longitudine = some exEnrichedOut.Longitudine ∧
        exEnrichedOut.Latitudine ≠ 0 ∧ exEnrichedOut.Longitudine ≠ 0 ∧
        35 ≤ exEnrichedOut.Latitudine ∧ exEnrichedOut.Latitudine ≤ 48 ∧
        6 ≤ exEnrichedOut.Longitudine ∧ exEnrichedOut.Longitudine ≤ 19) ∧
    enrichStation exPM exZeroStation = none :=
  ⟨(C3_coordinate_filter exPM [exStation]).1 exEnrichedOut (by decide),
   (C3_coordinate_filter exPM [exStation]).2 exZeroStation
     (Or.inr (Or.inr ⟨0, 12, rfl, rfl, Or.inl rfl⟩))⟩

/-- C5: the emitted FeatureCollection has exactly one feature per
surviving station, and each feature's geometry coordinates are
[Longitudine, Latitudine] — longitude first, swapped relative to the
station record's latitude-then-longitude field order. -/
theorem C5_feature_count_and_coordinates (l : List EnrichedStation) :
    (create_geojson l).features.length = l.length ∧
    ∀ i (h1 : i < (create_geojson l).features.length) (h2 : i < l.length),
      ((create_geojson l).features.get ⟨i, h1⟩).geometry.coordinates =
        [(l.get ⟨i, h2⟩).Longitudine, (l.get ⟨i, h2⟩).Latitudine] := by
  constructor
  · simp [create_geojson]
  · intro i h1 h2
    simp [create_geojson, toFeature]

/-- Witness for C5 on a one-station list. -/
theorem C5_witness :
    ((create_geojson [exBareStation]).features.get
        ⟨0, by simp [create_geojson]⟩).geometry.coordinates =
      [exBareStation.Longitudine, exBareStation.Latitudine] := by
  have h := (C5_feature_count_and_coordinates [exBareStation]).2 0
    (by simp [create_geojson]) (by simp)
  simpa using h

/-- The merge keeps each surviving station's identifier. -/
theorem enrichStation_id {pm : PriceState} {s : StationRecord} {e : EnrichedStation}
    (h : enrichStation pm s = some e) : e.idImpianto = s.idImpianto := by
  unfold enrichStation at h
  cases hg : dlookup s.idImpianto pm.price_groups with
  | none =>
    rw [hg] at h
    exact Option.noConfusion h
  | some gI =>
    rw [hg] at h
    cases hlat : toNumeric s.Latitudine with
    | none =>
      simp only [hlat] at h
      exact Option.noConfusion h
    | some lat =>
      cases hlon : toNumeric s.Longitudine with
      | none =>
        simp only [hlat, hlon] at h
        exact Option.noConfusion h
      | some lon =>
        simp only [hlat, hlon] at h
        by_cases hcond : (lat ≠ 0 ∧ lon ≠ 0 ∧ (35 ≤ lat ∧ lat ≤ 48) ∧ (6 ≤ lon ∧ lon ≤ 19))
        · rw [if_pos hcond] at h
          obtain rfl := Option.some_injective _ h
          rfl
        · rw [if_neg hcond] at h
          exact Option.noConfusion h

/-- The id sequence of the merge output is a subsequence of the input id
sequence: the filters are stable and nothing is reordered. -/
theorem cleanStations_id_sublist (pm : PriceState) (stations : List StationRecord) :
    List.Sublist ((cleanStations pm stations).map (fun e => e.idImpianto))
      (stations.map (fun s => s.idImpianto)) := by
  unfold cleanStations
  induction stations with
  | nil => simp
  | cons s ss ih =>
    rw [List.filterMap_cons]
    cases he : enrichStation pm s with
    | none =>
      simp only [List.map_cons]
      exact List.Sublist.cons _ ih
    | some e =>
      simp only [List.map_cons]
      rw [enrichStation_id he]
      exact List.Sublist.cons₂ _ ih

/-- C6: the stations surviving the filters are emitted in their original
relative order — the sequence of emitted feature ids is a subsequence of
the input station id sequence (stable filter, no sorting). -/
theorem C6_output_preserves_input_order (pm : PriceState) (stations : List StationRecord) :
    List.Sublist
      ((create_geojson (cleanStations pm stations)).features.map
        (fun f => f.properties.idImpianto))
      (stations.map (fun s => s.idImpianto)) := by
  have hmap : (create_geojson (cleanStations pm stations)).features.map
        (fun f => f.properties.idImpianto) =
      (cleanStations pm stations).map (fun e => e.idImpianto) := by
    simp [create_geojson, toFeature, List.map_map]
  rw [hmap]
  exact cleanStations_id_sublist pm stations

/-- If any row's price fails numeric coercion, the price loop ends in the
exception path. -/
theorem processPrices_error {rs : List PriceRecord} (st : PriceState)
    (h : ∃ r ∈ rs, pyFloat r.prezzo = none) :
    processPrices st rs = .error () := by
  induction rs generalizing st with
  | nil => simp at h
  | cons r rs ih =>
    obtain ⟨r', hr', hbad⟩ := h
    rcases List.mem_cons.mp hr' with rfl | hr'
    · simp [processPrices, processPriceRow, hbad]
    · cases hp : pyFloat r.prezzo with
      | none => simp [processPrices, processPriceRow, hp]
      | some p =>
        simp only [processPrices, processPriceRow, hp]
        exact ih _ ⟨r', hr', hbad⟩

/-- C7 (amended): if any price record carries a non-numeric price value,
`clean_and_merge_data` aborts the whole run through its exception handler
(`sys.exit(1)`) instead of excluding just that record. -/
theorem C7_amended_abort_on_nonnumeric_price {prices : List PriceRecord}
    {stations : List StationRecord}
    (h : ∃ r ∈ prices, pyFloat r.prezzo = none) :
    clean_and_merge_data prices stations = .error () := by
  unfold clean_and_merge_data buildPriceMaps
  rw [processPrices_error _ h]

/-- Counterexample to C7 as stated: with one good and one non-numeric
price row the pipeline aborts and produces no result, while the same run
without the bad row succeeds — the bad record is not merely excluded. -/
theorem C7_counterexample :
    clean_and_merge_data [exGoodRow, exBadRow] [exStation] = .error () ∧
    clean_and_merge_data [exGoodRow] [exStation] = .ok [exEnrichedOut1] ∧
    clean_and_merge_data [exGoodRow, exBadRow] [exStation] ≠
      clean_and_merge_data [exGoodRow] [exStation] := by
  refine ⟨rfl, rfl, fun hc => ?_⟩
  rw [show clean_and_merge_data [exGoodRow, exBadRow] [exStation] =
        .error () from rfl,
      show clean_and_merge_data [exGoodRow] [exStation] =
        .ok [exEnrichedOut1] from rfl] at hc
  exact Except.noConfusion hc

/-- Witness for the amended C7: a single bad row aborts the run. -/
theorem C7_witness :
    clean_and_merge_data [exBadRow] [exStation] = .error () :=
  C7_amended_abort_on_nonnumeric_price ⟨exBadRow, by decide, rfl⟩

/-- Counterexample to C8 as stated: after the merge, the caller's station
rows are not the pristine input rows — they carry the two assigned
columns. -/
theorem C8_counterexample :
    stationsAfterMerge exPM [exStation] ≠ [exStation].map pristineRow := by
  decide

/-- C8 (amended): the merge reads the price records without modifying
them, and every pre-existing field of every station record keeps its
value; the only caller-visible mutation is the two added columns `prices`
and `priceDates` on the stations dataframe. -/
theorem C8_amended_base_fields_preserved (pm : PriceState)
    (stations : List StationRecord) :
    (stationsAfterMerge pm stations).map StationRow.base = stations := by
  induction stations with
  | nil => rfl
  | cons s ss ih =>
    simp only [stationsAfterMerge, List.map_cons] at ih ⊢
    rw [ih]

/-- C9: each optional descriptive string field that is absent from the
station record appears in the emitted properties block as the empty
string — never null and never omitted (the properties fields are plain
strings). -/
theorem C9_missing_optional_fields_become_empty (e : EnrichedStation) :
    (e.Gestore = none → (toFeature e).properties.Gestore = "") ∧
    (e.Bandiera = none → (toFeature e).properties.Bandiera = "") ∧
    (e.TipoImpianto = none → (toFeature e).properties.TipoImpianto = "") ∧
    (e.NomeImpianto = none → (toFeature e).properties.NomeImpianto = "") ∧
    (e.Indirizzo = none → (toFeature e).properties.Indirizzo = "") ∧
    (e.Comune = none → (toFeature e).properties.Comune = "") ∧
    (e.Provincia = none → (toFeature e).properties.Provincia = "") := by
  refine ⟨?_, ?_, ?_, ?_, ?_, ?_, ?_⟩ <;> intro h <;> simp [toFeature, h]

/-- Witness for C9 on a station with every optional field absent. -/
theorem C9_witness :
    (toFeature exBareStation).properties.Gestore = "" ∧
    (toFeature exBareStation).properties.Bandiera = "" ∧
    (toFeature exBareStation).properties.TipoImpianto = "" ∧
    (toFeature exBareStation).properties.NomeImpianto = "" ∧
    (toFeature exBareStation).properties.Indirizzo = "" ∧
    (toFeature exBareStation).properties.Comune = "" ∧
    (toFeature exBareStation).properties.Provincia = "" := by
  obtain ⟨h1, h2, h3, h4, h5, h6, h7⟩ :=
    C9_missing_optional_fields_become_empty exBareStation
  exact ⟨h1 rfl, h2 rfl, h3 rfl, h4 rfl, h5 rfl, h6 rfl, h7 rfl⟩
